import Mathlib

/-!
Shallow embedding of the BurpAIBridge capture-and-serve subsystem
(`burp_ai_bridge.py`): the bounded history store fed by the proxy
callback, the store accessors, and the hand-rolled HTTP router /
response writer.  Machine-level concerns (sockets, threads, Java
interop) are out of scope; the pure data transformations are embedded
faithfully, and external library calls (`base64.b64encode`,
`json.dumps`, Burp helper objects) are modelled by executable Lean
functions noted as such in their doc comments.
-/

/-- Extension version constant (`VERSION = "1.0.0"`). -/
def VERSION : String := "1.0.0"

/-- Extension author constant (`AUTHOR = "Can Hieu"`). -/
def AUTHOR : String := "Can Hieu"

/-- History capacity, `self._max_history = 1000`. -/
def maxHistory : Nat := 1000

/-- Result of `helpers.analyzeRequest`: the method, URL and header lines
the Burp helper extracts from the raw request.  External collaborator,
modelled at its boundary. -/
structure RequestInfo where
  method : String
  url : String
  headers : List String
deriving DecidableEq

/-- Result of `helpers.analyzeResponse`: status code and header lines.
External collaborator, modelled at its boundary. -/
structure ResponseInfo where
  statusCode : Int
  headers : List String
deriving DecidableEq

/-- One invocation of the proxy callback: the raw request / response
byte buffers (`none` models Java `null`), the `IHttpService` connection
metadata, and the outcome of the two helper analyses for this message
(`none` models the helper call raising, since the callback wraps the
calls in no `try`). -/
structure ProxyMessage where
  request : Option (List Nat)
  response : Option (List Nat)
  host : String
  port : Nat
  protocol : String
  analyzeRequest : Option RequestInfo
  analyzeResponse : Option ResponseInfo
deriving DecidableEq

/-- One capture entry, the dict built in `processProxyMessage`.
`status_code` and `response_headers` are optional because the source
sets those two keys only under `if response:`. -/
structure CaptureEntry where
  index : Nat
  host : String
  port : Nat
  protocol : String
  request : String
  response : String
  request_text : String
  response_length : Nat
  method : String
  url : String
  headers : List String
  status_code : Option Int
  response_headers : Option (List String)
deriving DecidableEq

/-- Standard base64 alphabet, modelling `base64.b64encode`. -/
def b64Alphabet : List Char :=
  "ABCDEFGHIJKLMNOPQRSTUVWXYZabcdefghijklmnopqrstuvwxyz0123456789+/".data

/-- Character for one 6-bit group. -/
def b64Char (n : Nat) : Char := b64Alphabet.getD n '='

/-- Base64-encode a byte list three bytes at a time, with `=` padding.
Modelled from the Python stdlib `base64.b64encode`. -/
def b64encodeAux : List Nat → List Char
  | [] => []
  | [a] =>
      [b64Char (a / 4 % 64), b64Char (a % 4 * 16), '=', '=']
  | [a, b] =>
      [b64Char (a / 4 % 64), b64Char (a % 4 * 16 + b / 16 % 16),
       b64Char (b % 16 * 4), '=']
  | a :: b :: c :: rest =>
      b64Char (a / 4 % 64) :: b64Char (a % 4 * 16 + b / 16 % 16) ::
      b64Char (b % 16 * 4 + c / 64 % 4) :: b64Char (c % 64) ::
      b64encodeAux rest

/-- Model of `base64.b64encode(bytearray(buf)).decode('utf-8')`. -/
def b64encode (bs : List Nat) : String := ⟨b64encodeAux bs⟩

/-- Model of Burp `helpers.bytesToString`: a best-effort decoding of the
raw bytes to text. -/
def bytesToString (bs : List Nat) : String := ⟨bs.map Char.ofNat⟩

/-- Does the pattern occur at the head of the list. -/
def matchesAt : List Char → List Char → Bool
  | [], _ => true
  | _ :: _, [] => false
  | c :: p, d :: l => c == d && matchesAt p l

/-- Fuel-driven worker for `pySplit`; the fuel is the input length, so
it never runs out while characters remain. -/
def pySplitFuel (sep : List Char) : Nat → List Char → List Char →
    List (List Char)
  | _, [], cur => [cur.reverse]
  | 0, s, cur => [cur.reverse ++ s]
  | fuel + 1, c :: rest, cur =>
    if matchesAt sep (c :: rest) then
      cur.reverse :: pySplitFuel sep fuel (rest.drop (sep.length - 1)) []
    else pySplitFuel sep fuel rest (c :: cur)

/-- Model of Python `str.split(sep)` with an explicit non-empty
separator: splits at every occurrence, keeping empty pieces. -/
def pySplit (s sep : List Char) : List (List Char) :=
  pySplitFuel sep s.length s []

/-- String-level wrapper for `pySplit`. -/
def pySplitStr (s sep : String) : List String :=
  (pySplit s.data sep.data).map (fun l => ⟨l⟩)

/-- Model of Python `str.startswith`. -/
def pyStartsWith (s pre : String) : Bool := matchesAt pre.data s.data

/-- Python truthiness of a nullable byte buffer, as used by
`if request and response:` — `null` and the empty buffer are falsy. -/
def pyTruthyBytes : Option (List Nat) → Bool
  | none => false
  | some l => !l.isEmpty

/-- The entry dict built by `processProxyMessage` when both buffers are
present and both helper analyses succeed (`ri`, `si`).  `index` is set
to `len(self._history)` at the moment of the call. -/
def buildEntry (history : List CaptureEntry) (m : ProxyMessage)
    (ri : RequestInfo) (si : ResponseInfo) : CaptureEntry :=
  { index := history.length
    host := m.host
    port := m.port
    protocol := m.protocol
    request := b64encode (m.request.getD [])
    response := b64encode (m.response.getD [])
    request_text := bytesToString (m.request.getD [])
    response_length := (m.response.getD []).length
    method := ri.method
    url := ri.url
    headers := ri.headers
    status_code := some si.statusCode
    response_headers := some si.headers }

/-- The append-then-bound step of `processProxyMessage`:
`self._history.append(entry)` followed by
`if len(self._history) > self._max_history: self._history.pop(0)`. -/
def appendEvict (history : List CaptureEntry) (e : CaptureEntry) :
    List CaptureEntry :=
  if (history ++ [e]).length > maxHistory then (history ++ [e]).drop 1
  else history ++ [e]

/-- The proxy callback `processProxyMessage(messageIsRequest, message)`
acting on the history list.  Request-phase notifications do nothing; a
response-phase notification appends exactly when both buffers are truthy
and both helper analyses return (a raising helper propagates out of the
callback before the `append` line, leaving the history unchanged). -/
def processProxyMessage (history : List CaptureEntry)
    (messageIsRequest : Bool) (message : ProxyMessage) :
    List CaptureEntry :=
  if messageIsRequest then history
  else
    if pyTruthyBytes message.request && pyTruthyBytes message.response then
      match message.analyzeRequest, message.analyzeResponse with
      | some ri, some si => appendEvict history (buildEntry history message ri si)
      | _, _ => history
    else history

/-- A whole run of the capture path: fold the callback over a list of
`(messageIsRequest, message)` notifications starting from the empty
history created in `registerExtenderCallbacks`. -/
def captureRun (msgs : List (Bool × ProxyMessage)) : List CaptureEntry :=
  msgs.foldl (fun h p => processProxyMessage h p.1 p.2) []

/-- `get_history`: returns the whole history list. -/
def get_history (history : List CaptureEntry) : List CaptureEntry :=
  history

/-- `get_history_item(index)`: positional access guarded by
`0 <= index < len(self._history)`, returning `None` out of range. -/
def get_history_item (history : List CaptureEntry) (index : Int) :
    Option CaptureEntry :=
  if 0 ≤ index ∧ index < (history.length : Int) then
    history.get? index.toNat
  else none

/-- The dict returned by `get_stats`. -/
structure Stats where
  version : String
  author : String
  total_requests : Nat
  hosts : List String
  methods : List (String × Nat)
deriving DecidableEq

/-- `get_stats`: aggregate statistics over the current history.
`hosts` models `list(set(...))` as order-preserving deduplication;
`methods` models the dict comprehension over `set` of methods as an
association list keyed by the distinct methods. -/
def get_stats (history : List CaptureEntry) : Stats :=
  { version := VERSION
    author := AUTHOR
    total_requests := history.length
    hosts := (history.map (fun h => h.host)).dedup
    methods := (history.map (fun h => h.method)).dedup.map
      (fun m => (m, (history.filter (fun h => h.method == m)).length)) }

/-- Lower-case hexadecimal digit character. -/
def hexDigitChar : Nat → Char
  | 0 => '0' | 1 => '1' | 2 => '2' | 3 => '3' | 4 => '4'
  | 5 => '5' | 6 => '6' | 7 => '7' | 8 => '8' | 9 => '9'
  | 10 => 'a' | 11 => 'b' | 12 => 'c' | 13 => 'd' | 14 => 'e'
  | 15 => 'f' | _ => '*'

/-- Four-hex-digit unicode escape, as `json.dumps` emits for non-ASCII
and control characters. -/
def uEscape (n : Nat) : String :=
  "\\u" ++ ⟨[hexDigitChar (n / 4096 % 16), hexDigitChar (n / 256 % 16),
             hexDigitChar (n / 16 % 16), hexDigitChar (n % 16)]⟩

/-- Per-character escaping of `json.dumps` with its default
`ensure_ascii=True`: printable ASCII other than quote and backslash is
kept, everything else is escaped (named shortcuts, `\uXXXX`, and
surrogate pairs beyond the BMP). -/
def escapeChar (c : Char) : String :=
  if c == '"' then "\\\""
  else if c == '\\' then "\\\\"
  else if 32 ≤ c.toNat ∧ c.toNat ≤ 126 then String.singleton c
  else if c == '\x08' then "\\b"
  else if c == '\x0c' then "\\f"
  else if c == '\n' then "\\n"
  else if c == '\r' then "\\r"
  else if c == '\t' then "\\t"
  else if c.toNat < 65536 then uEscape c.toNat
  else uEscape (55296 + (c.toNat - 65536) / 1024) ++
       uEscape (56320 + (c.toNat - 65536) % 1024)

/-- Concatenation of a list of strings. -/
def strConcat : List String → String
  | [] => ""
  | s :: rest => s ++ strConcat rest

/-- Join strings with a separator. -/
def joinSep (sep : String) : List String → String
  | [] => ""
  | [s] => s
  | s :: rest => s ++ sep ++ joinSep sep rest

/-- JSON string literal producer of `json.dumps` (`ensure_ascii` on). -/
def jsonStr (s : String) : String :=
  "\"" ++ strConcat (s.data.map escapeChar) ++ "\""

/-- Decimal rendering of an integer, as `json.dumps` prints numbers. -/
def intRepr (i : Int) : String :=
  if i < 0 then "-" ++ Nat.repr i.natAbs else Nat.repr i.natAbs

/-- JSON array of strings. -/
def dumpsStrList (l : List String) : String :=
  "[" ++ joinSep ", " (l.map jsonStr) ++ "]"

/-- One `"key": value` member of a JSON object. -/
def jsonField (k v : String) : String := jsonStr k ++ ": " ++ v

/-- The members of a capture-entry JSON object, in the insertion order
of `processProxyMessage`; the two conditional keys appear only when the
entry carries them. -/
def entryFields (e : CaptureEntry) : List String :=
  [jsonField "index" (Nat.repr e.index),
   jsonField "host" (jsonStr e.host),
   jsonField "port" (Nat.repr e.port),
   jsonField "protocol" (jsonStr e.protocol),
   jsonField "request" (jsonStr e.request),
   jsonField "response" (jsonStr e.response),
   jsonField "request_text" (jsonStr e.request_text),
   jsonField "response_length" (Nat.repr e.response_length),
   jsonField "method" (jsonStr e.method),
   jsonField "url" (jsonStr e.url),
   jsonField "headers" (dumpsStrList e.headers)] ++
  (match e.status_code with
   | some sc => [jsonField "status_code" (intRepr sc)]
   | none => []) ++
  (match e.response_headers with
   | some hs => [jsonField "response_headers" (dumpsStrList hs)]
   | none => [])

/-- Model of `json.dumps(entry, indent=2)`; the whitespace layout of
`indent` is not reproduced (no claim depends on it), the member set and
escaping are. -/
def dumpsEntry (e : CaptureEntry) : String :=
  "\x7b" ++ joinSep ", " (entryFields e) ++ "\x7d"

/-- Model of `json.dumps(history, indent=2)`. -/
def dumpsHistory (h : List CaptureEntry) : String :=
  "[" ++ joinSep ", " (h.map dumpsEntry) ++ "]"

/-- Model of `json.dumps(stats, indent=2)`. -/
def dumpsStats (st : Stats) : String :=
  "\x7b" ++ joinSep ", "
    [jsonField "version" (jsonStr st.version),
     jsonField "author" (jsonStr st.author),
     jsonField "total_requests" (Nat.repr st.total_requests),
     jsonField "hosts" (dumpsStrList st.hosts),
     jsonField "methods"
       ("\x7b" ++ joinSep ", "
          (st.methods.map (fun p => jsonField p.1 (Nat.repr p.2))) ++
        "\x7d")] ++ "\x7d"

/-- Body of `GET /health`, `json.dumps` of the fixed status dict. -/
def healthBody : String :=
  "\x7b" ++ joinSep ", "
    [jsonField "status" (jsonStr "ok"),
     jsonField "extension" (jsonStr "Burp AI Bridge"),
     jsonField "version" (jsonStr VERSION),
     jsonField "author" (jsonStr AUTHOR)] ++ "\x7d"

/-- Body `json.dumps({"error": msg})` used by the 400 and 404 replies. -/
def errorBody (msg : String) : String :=
  "\x7b" ++ jsonField "error" (jsonStr msg) ++ "\x7d"

/-- Body of the catch-all 404 reply listing available endpoints. -/
def notFoundBody : String :=
  "\x7b" ++ joinSep ", "
    [jsonField "error" (jsonStr "Endpoint not found"),
     jsonField "available"
       (dumpsStrList ["/health", "/history", "/history/N", "/stats"])] ++
  "\x7d"

/-- Python whitespace accepted around the digits by `int(str)`. -/
def pySpace (c : Char) : Bool :=
  c == ' ' || c == '\t' || c == '\n' || c == '\r' || c == '\x0b' || c == '\x0c'

/-- Digits-only body of a decimal literal. -/
def digitsToNat (ds : List Char) : Option Nat :=
  if ds.isEmpty then none
  else if ds.all Char.isDigit then
    some (ds.foldl (fun acc c => acc * 10 + (c.toNat - 48)) 0)
  else none

/-- Model of Python `int(s)`: optional surrounding whitespace, optional
sign, then at least one decimal digit; anything else raises
(`none`).  Note it accepts negative numbers. -/
def parseIntPy (s : String) : Option Int :=
  let trimmed := ((s.data.dropWhile pySpace).reverse.dropWhile pySpace).reverse
  match trimmed with
  | '+' :: ds => (digitsToNat ds).map (fun n => (n : Int))
  | '-' :: ds => (digitsToNat ds).map (fun n => -(n : Int))
  | ds => (digitsToNat ds).map (fun n => (n : Int))

/-- Trailing path segment, `path.split("/")[-1]`. -/
def lastSegment (path : String) : String :=
  (pySplitStr path "/").getLastD ""

/-- The CORS header block prepended to every reply. -/
def corsHeaders : String :=
  "Access-Control-Allow-Origin: *\r\nAccess-Control-Allow-Methods: GET, POST, OPTIONS\r\nAccess-Control-Allow-Headers: Content-Type\r\n"

/-- The routing block of `RequestHandler.run`: maps the parsed method
and path to the status line and JSON body, following the source's
branch order.  The bare `except` around `int(...)` surfaces as the
`none` branch of `parseIntPy`. -/
def route (history : List CaptureEntry) (method path : String) :
    String × String :=
  if method == "OPTIONS" then ("200 OK", "")
  else if path == "/health" then ("200 OK", healthBody)
  else if path == "/history" then ("200 OK", dumpsHistory (get_history history))
  else if pyStartsWith path "/history/" then
    match parseIntPy (lastSegment path) with
    | none => ("400 Bad Request", errorBody "Invalid index")
    | some index =>
      match get_history_item history index with
      | some item => ("200 OK", dumpsEntry item)
      | none => ("404 Not Found", errorBody "Item not found")
  else if path == "/stats" then ("200 OK", dumpsStats (get_stats history))
  else ("404 Not Found", notFoundBody)

/-- The response string written to the socket:
`"HTTP/1.1 %s\r\n%sContent-Type: ...Content-Length: %d..." % (status,
cors_headers, len(response_body), response_body)`. -/
def buildResponse (status body : String) : String :=
  "HTTP/1.1 " ++ status ++ "\r\n" ++ corsHeaders ++
  "Content-Type: application/json\r\nContent-Length: " ++
  Nat.repr body.length ++ "\r\nConnection: close\r\n\r\n" ++ body

/-- Request-line parsing of `RequestHandler.run`: first CRLF-separated
line, split on spaces; fewer than two parts means no response at all. -/
def parseRequestLine (request : String) : Option (String × String) :=
  match pySplitStr ((pySplitStr request "\r\n").headD "") " " with
  | m :: p :: _ => some (m, p)
  | _ => none

/-- One HTTP exchange over an already-read request string: `none` means
the handler wrote no bytes (malformed request line), `some r` means it
wrote exactly `r`. -/
def handleRequest (history : List CaptureEntry) (request : String) :
    Option String :=
  (parseRequestLine request).map
    (fun mp => buildResponse (route history mp.1 mp.2).1
                             (route history mp.1 mp.2).2)

/-- The byte-at-a-time read loop: consume the stream until end-of-stream
or until the last four accumulated characters are CR LF CR LF. -/
def readLoop : List Nat → List Char → List Char
  | [], acc => acc
  | b :: rest, acc =>
    let acc2 := acc ++ [Char.ofNat b]
    if 4 ≤ acc2.length ∧ acc2.drop (acc2.length - 4) = ['\r', '\n', '\r', '\n']
    then acc2
    else readLoop rest acc2

/-- The request string read off a connection byte stream. -/
def readRequest (stream : List Nat) : String := ⟨readLoop stream []⟩

/-- A whole connection: read the request, parse, route, and produce the
written bytes (`none` when nothing is written back). -/
def handleConnection (history : List CaptureEntry) (stream : List Nat) :
    Option String :=
  handleRequest history (readRequest stream)

/-- Status line the router chooses for a request string (empty when the
request is malformed and nothing is written). -/
def responseStatusOf (history : List CaptureEntry) (request : String) :
    String :=
  match parseRequestLine request with
  | some mp => (route history mp.1 mp.2).1
  | none => ""

/-- JSON body the router chooses for a request string. -/
def responseBodyOf (history : List CaptureEntry) (request : String) :
    String :=
  match parseRequestLine request with
  | some mp => (route history mp.1 mp.2).2
  | none => ""

/-- A sample capture entry with a chosen `index` field, used as concrete
input in the witness statements. -/
def mkEntry (j : Nat) : CaptureEntry :=
  { index := j
    host := "example.com"
    port := 443
    protocol := "https"
    request := "Rw=="
    response := "Tw=="
    request_text := "G"
    response_length := 1
    method := "GET"
    url := "https://example.com/"
    headers := ["GET / HTTP/1.1"]
    status_code := some 200
    response_headers := some ["HTTP/1.1 200 OK"] }

/-- Sample outcome of `helpers.analyzeRequest`. -/
def sampleReqInfo : RequestInfo :=
  { method := "GET"
    url := "https://example.com/"
    headers := ["GET / HTTP/1.1", "Host: example.com"] }

/-- Sample outcome of `helpers.analyzeResponse`. -/
def sampleRespInfo : ResponseInfo :=
  { statusCode := 200
    headers := ["HTTP/1.1 200 OK"] }

/-- A fully analyzable proxy message carrying both buffers. -/
def sampleMsg : ProxyMessage :=
  { request := some [71, 69, 84]
    response := some [72, 84, 84, 80]
    host := "example.com"
    port := 443
    protocol := "https"
    analyzeRequest := some sampleReqInfo
    analyzeResponse := some sampleRespInfo }

/-- The same message but with `helpers.analyzeRequest` raising. -/
def failingAnalyzeMsg : ProxyMessage :=
  { sampleMsg with analyzeRequest := none }

/-- The same message but with no response buffer yet. -/
def noResponseMsg : ProxyMessage :=
  { sampleMsg with response := none }

/-- A character the wire protocol treats as one byte in UTF-8. -/
def asciiChar (c : Char) : Bool := c.toNat < 128

/-- All characters of the string are ASCII, so its UTF-8 byte count
equals its character count. -/
def asciiStr (s : String) : Bool := s.data.all asciiChar

/-- Does the pattern occur anywhere in the list. -/
def findSub (p : List Char) : List Char → Bool
  | [] => p.isEmpty
  | d :: l => matchesAt p (d :: l) || findSub p l

/-- Substring occurrence test used to state header-presence properties
of the written response. -/
def strHasSub (r pat : String) : Bool := findSub pat.data r.data
theorem appendEvict_eq_evict (h : List CaptureEntry) (e : CaptureEntry)
    (hc : h.length + 1 > maxHistory) :
    appendEvict h e = (h ++ [e]).drop 1 := by
  simp only [appendEvict]
  rw [if_pos (by simpa using hc)]

theorem appendEvict_eq_append (h : List CaptureEntry) (e : CaptureEntry)
    (hc : ¬ h.length + 1 > maxHistory) :
    appendEvict h e = h ++ [e] := by
  simp only [appendEvict]
  rw [if_neg (by simpa using hc)]


theorem drop_congr (a b : Nat) (l : List CaptureEntry) (hab : a = b) :
    l.drop a = l.drop b := by rw [hab]

theorem foldl_appendEvict (es : List CaptureEntry) :
    ∀ h : List CaptureEntry, h.length ≤ maxHistory →
      List.foldl appendEvict h es =
        (h ++ es).drop (h.length + es.length - maxHistory) := by
  induction es with
  | nil =>
    intro h hle
    simp only [List.foldl_nil, List.append_nil, List.length_nil, Nat.add_zero]
    rw [Nat.sub_eq_zero_of_le hle, List.drop_zero]
  | cons e es ih =>
    intro h hle
    simp only [List.foldl_cons]
    by_cases hc : h.length + 1 > maxHistory
    · have hlen : h.length = maxHistory := by omega
      have hA := appendEvict_eq_evict h e hc
      have hlenA : (appendEvict h e).length = maxHistory := by
        rw [hA]
        simp only [List.length_drop, List.length_append, List.length_singleton]
        omega
      rw [ih _ (le_of_eq hlenA), hA]
      have hsplit : ((h ++ [e]).drop 1) ++ es = ((h ++ [e]) ++ es).drop 1 :=
        (List.drop_append_of_le_length (by simp)).symm
      rw [hsplit, List.drop_drop]
      rw [List.append_assoc, List.singleton_append]
      apply drop_congr
      simp only [List.length_drop, List.length_append, List.length_singleton,
        List.length_cons, List.length_nil]
      omega
    · have hA := appendEvict_eq_append h e hc
      have hle2 : (appendEvict h e).length ≤ maxHistory := by
        rw [hA]
        simp only [List.length_append, List.length_singleton]
        omega
      rw [ih _ hle2, hA]
      rw [List.append_assoc, List.singleton_append]
      apply drop_congr
      simp only [List.length_append, List.length_singleton, List.length_cons,
        List.length_nil]
      omega

theorem foldl_appendEvict_nil (es : List CaptureEntry) :
    List.foldl appendEvict [] es = es.drop (es.length - maxHistory) := by
  simpa using foldl_appendEvict es [] (by simp [maxHistory])

theorem foldl_appendEvict_length (es : List CaptureEntry) :
    (List.foldl appendEvict [] es).length = min es.length maxHistory := by
  rw [foldl_appendEvict_nil]
  simp only [List.length_drop]
  omega

/-- C2: after any sequence of more than `maxHistory` appends, the store
holds exactly the last `maxHistory` appended entries in oldest-first
order, its length is exactly `maxHistory`, and after every prefix of the
append sequence the length is at most `maxHistory` (FIFO eviction drops
the oldest entry first). -/
theorem history_bounded_fifo (es : List CaptureEntry)
    (hN : es.length > maxHistory) :
    get_history (List.foldl appendEvict [] es) =
      es.drop (es.length - maxHistory) ∧
    (get_history (List.foldl appendEvict [] es)).length = maxHistory ∧
    ∀ n : Nat, (List.foldl appendEvict [] (es.take n)).length ≤ maxHistory := by
  refine ⟨foldl_appendEvict_nil es, ?_, ?_⟩
  · show (List.foldl appendEvict [] es).length = maxHistory
    rw [foldl_appendEvict_length]
    omega
  · intro n
    rw [foldl_appendEvict_length]
    simp only [List.length_take]
    omega

/-- Witness for the FIFO theorem at a concrete run of 1001 appends. -/
theorem history_bounded_fifo_w :
    (List.replicate 1001 (mkEntry 0)).length > maxHistory ∧
    get_history (List.foldl appendEvict [] (List.replicate 1001 (mkEntry 0))) =
      (List.replicate 1001 (mkEntry 0)).drop
        ((List.replicate 1001 (mkEntry 0)).length - maxHistory) ∧
    (get_history
      (List.foldl appendEvict [] (List.replicate 1001 (mkEntry 0)))).length =
      maxHistory := by
  have h : (List.replicate 1001 (mkEntry 0)).length > maxHistory := by
    simp only [List.length_replicate, maxHistory]
    omega
  exact ⟨h, (history_bounded_fifo _ h).1, (history_bounded_fifo _ h).2.1⟩

/-- C3: the `index` assigned by the capture path equals the store length
immediately before the append; the length never decreases across an
append, the first assigned index is zero, and after `n` appends from
empty the length (hence the next assigned index) is `min n maxHistory`,
so assigned indices are monotone and zero-based. -/
theorem append_assigns_prior_length (history : List CaptureEntry)
    (m : ProxyMessage) (ri : RequestInfo) (si : ResponseInfo)
    (e : CaptureEntry) (es : List CaptureEntry) :
    (buildEntry history m ri si).index = history.length ∧
    history.length ≤ (appendEvict history e).length ∧
    (buildEntry [] m ri si).index = 0 ∧
    (List.foldl appendEvict [] es).length = min es.length maxHistory := by
  refine ⟨rfl, ?_, rfl, foldl_appendEvict_length es⟩
  by_cases hc : history.length + 1 > maxHistory
  · rw [appendEvict_eq_evict _ _ hc]
    simp only [List.length_drop, List.length_append, List.length_singleton]
    omega
  · rw [appendEvict_eq_append _ _ hc]
    simp only [List.length_append, List.length_singleton]
    omega

/-- C1 counterexample: run 1001 appends (entry `j` carrying index field
`j`, as the capture path assigns); the store then retains entries with
index fields 1..1000, an entry with field value 1 is retained, yet
`get_history_item 1` returns the entry whose field is 2 — lookup is
positional, not a search over the stored field. -/
theorem getByIndex_field_lookup_cex :
    get_history_item
      (List.foldl appendEvict [] ((List.range 1001).map mkEntry)) 1 =
      some (mkEntry 2) ∧
    (mkEntry 2).index = 2 ∧
    mkEntry 1 ∈ List.foldl appendEvict [] ((List.range 1001).map mkEntry) ∧
    (mkEntry 1).index = 1 := by
  have hes : ((List.range 1001).map mkEntry).length = 1001 := by simp
  have hstore :
      List.foldl appendEvict [] ((List.range 1001).map mkEntry) =
        ((List.range 1001).map mkEntry).drop 1 := by
    rw [foldl_appendEvict_nil, hes]
    norm_num [maxHistory]
  have hlen : (((List.range 1001).map mkEntry).drop 1).length = 1000 := by
    simp
  have hget : ∀ n : Nat, n < 1001 →
      ((List.range 1001).map mkEntry).get? n = some (mkEntry n) := by
    intro n hn
    rw [List.get?_eq_getElem?]
    simp [List.getElem?_map, List.getElem?_range, hn]
  refine ⟨?_, rfl, ?_, rfl⟩
  · rw [hstore]
    unfold get_history_item
    rw [if_pos (by rw [hlen]; omega)]
    rw [List.get?_eq_getElem?, List.getElem?_drop, ← List.get?_eq_getElem?]
    exact hget 2 (by omega)
  · rw [hstore]
    have h1 : (((List.range 1001).map mkEntry).drop 1).get? 0 =
        some (mkEntry 1) := by
      rw [List.get?_eq_getElem?, List.getElem?_drop, ← List.get?_eq_getElem?]
      exact hget 1 (by omega)
    exact List.get?_mem h1

/-- C1 (amended): `get_history_item` is positional access into the
retained sequence — for every position `k` it returns the entry at that
position, and it returns `none` exactly when the integer is negative or
at least the current length.  After eviction the entry at position `k`
need not have index field `k`, so lookup is by position, not by the
stored field value. -/
theorem getByIndex_positional (history : List CaptureEntry) (i : Int) :
    (get_history_item history i = none ↔
      i < 0 ∨ (history.length : Int) ≤ i) ∧
    ∀ k : Fin history.length,
      get_history_item history ((k : Nat) : Int) = some (history.get k) := by
  constructor
  · unfold get_history_item
    by_cases h : 0 ≤ i ∧ i < (history.length : Int)
    · rw [if_pos h]
      have hlt : i.toNat < history.length := by omega
      rw [List.get?_eq_get hlt]
      simp only [reduceCtorEq, false_iff]
      omega
    · rw [if_neg h]
      simp only [true_iff]
      omega
  · intro k
    unfold get_history_item
    rw [if_pos (by exact ⟨by exact_mod_cast Nat.zero_le _, by exact_mod_cast k.isLt⟩)]
    have hk : (((k : Nat) : Int)).toNat = (k : Nat) := by omega
    rw [hk, List.get?_eq_get k.isLt]

theorem filter_method_eq_count (history : List CaptureEntry) (m : String) :
    (history.filter (fun e => e.method == m)).length =
      (history.map (fun e => e.method)).count m := by
  rw [← List.countP_eq_length_filter, List.count, List.countP_map]
  rfl

/-- C4: `get_stats` reports `total_requests` equal to the retained
count, `hosts` as exactly the set of distinct host values, `methods`
mapping exactly the observed method strings to their occurrence counts,
and the method counts sum to `total_requests`. -/
theorem stats_consistent (history : List CaptureEntry) :
    (get_stats history).total_requests = (get_history history).length ∧
    (get_stats history).hosts.Nodup ∧
    (∀ s, s ∈ (get_stats history).hosts ↔
      s ∈ history.map (fun e => e.host)) ∧
    (∀ m k, (m, k) ∈ (get_stats history).methods ↔
      m ∈ history.map (fun e => e.method) ∧
        k = (history.filter (fun e => e.method == m)).length) ∧
    ((get_stats history).methods.map Prod.snd).sum =
      (get_stats history).total_requests := by
  refine ⟨rfl, ?_, ?_, ?_, ?_⟩
  · exact List.nodup_dedup _
  · intro s
    exact List.mem_dedup
  · intro m k
    constructor
    · intro hmk
      rcases List.mem_map.1 hmk with ⟨m2, hm2, heq⟩
      rcases heq
      exact ⟨List.mem_dedup.1 hm2, rfl⟩
    · rintro ⟨hm, rfl⟩
      exact List.mem_map.2 ⟨m, List.mem_dedup.2 hm, rfl⟩
  · show ((((history.map (fun h => h.method)).dedup.map
        (fun m => (m, (history.filter (fun h => h.method == m)).length))).map
          Prod.snd).sum = history.length)
    rw [List.map_map]
    have hfun : (Prod.snd ∘ fun m =>
        (m, (history.filter (fun h => h.method == m)).length)) =
        fun m => (history.map (fun e => e.method)).count m := by
      funext m
      exact filter_method_eq_count history m
    rw [hfun]
    rw [List.sum_map_count_dedup_eq_length]
    simp

/-- C7 counterexample: both byte buffers are present on this message,
yet because the callback wraps `helpers.analyzeRequest` in no `try`, a
failing analysis aborts the invocation before the `append` line — the
store stays empty instead of receiving an entry with defaulted
metadata fields. -/
theorem capture_always_appends_cex :
    pyTruthyBytes failingAnalyzeMsg.request = true ∧
    pyTruthyBytes failingAnalyzeMsg.response = true ∧
    processProxyMessage [] false failingAnalyzeMsg = [] :=
  ⟨rfl, rfl, rfl⟩

/-- C7 (amended): a response-phase invocation with both buffers truthy
and both helper analyses succeeding appends exactly one entry (subject
to the same-call FIFO bound); an invocation whose response buffer is
absent appends nothing, an invocation whose metadata analysis raises
appends nothing (the exception propagates before the append), and
request-phase invocations append nothing. -/
theorem capture_appends_iff (history : List CaptureEntry)
    (m : ProxyMessage) (ri : RequestInfo) (si : ResponseInfo) :
    processProxyMessage history true m = history ∧
    (pyTruthyBytes m.request = true → pyTruthyBytes m.response = true →
      m.analyzeRequest = some ri → m.analyzeResponse = some si →
      processProxyMessage history false m =
        appendEvict history (buildEntry history m ri si)) ∧
    (m.response = none → processProxyMessage history false m = history) ∧
    (m.analyzeRequest = none → processProxyMessage history false m = history) ∧
    (m.analyzeResponse = none →
      processProxyMessage history false m = history) := by
  refine ⟨rfl, ?_, ?_, ?_, ?_⟩
  · intro h1 h2 h3 h4
    simp [processProxyMessage, h1, h2, h3, h4]
  · intro h
    simp [processProxyMessage, pyTruthyBytes, h]
  · intro h
    cases htr : (pyTruthyBytes m.request && pyTruthyBytes m.response) <;>
      simp [processProxyMessage, h, htr]
  · intro h
    cases har : m.analyzeRequest <;>
      cases htr : (pyTruthyBytes m.request && pyTruthyBytes m.response) <;>
        simp [processProxyMessage, h, har, htr]

/-- Witness: a concrete qualifying invocation appends exactly the built
entry. -/
theorem capture_appends_iff_w :
    processProxyMessage [] false sampleMsg =
      appendEvict [] (buildEntry [] sampleMsg sampleReqInfo sampleRespInfo) :=
  (capture_appends_iff [] sampleMsg sampleReqInfo sampleRespInfo).2.1
    rfl rfl rfl rfl

theorem mem_appendEvict (h : List CaptureEntry) (e x : CaptureEntry)
    (hx : x ∈ appendEvict h e) : x ∈ h ∨ x = e := by
  unfold appendEvict at hx
  split at hx
  · have hx2 : x ∈ h ++ [e] := List.drop_subset _ _ hx
    rcases List.mem_append.1 hx2 with h1 | h1
    · exact Or.inl h1
    · exact Or.inr (List.mem_singleton.1 h1)
  · rcases List.mem_append.1 hx with h1 | h1
    · exact Or.inl h1
    · exact Or.inr (List.mem_singleton.1 h1)

/-- C10: every entry retained after any sequence of proxy callbacks has
its `status_code` and `response_headers` fields set — the capture path
appends only when a response is present, and then it sets both. -/
theorem retained_entry_has_response_fields
    (msgs : List (Bool × ProxyMessage)) (e : CaptureEntry)
    (he : e ∈ captureRun msgs) :
    e.status_code.isSome = true ∧ e.response_headers.isSome = true := by
  have key : ∀ (ms : List (Bool × ProxyMessage)) (h0 : List CaptureEntry),
      (∀ x ∈ h0, x.status_code.isSome = true ∧
        x.response_headers.isSome = true) →
      ∀ x ∈ ms.foldl (fun h p => processProxyMessage h p.1 p.2) h0,
        x.status_code.isSome = true ∧ x.response_headers.isSome = true := by
    intro ms
    induction ms with
    | nil =>
      intro h0 hinv x hx
      exact hinv x hx
    | cons p ms ih =>
      intro h0 hinv x hx
      simp only [List.foldl_cons] at hx
      refine ih (processProxyMessage h0 p.1 p.2) ?_ x hx
      intro y hy
      unfold processProxyMessage at hy
      split at hy
      · exact hinv y hy
      · split at hy
        · revert hy
          cases p.2.analyzeRequest <;> cases p.2.analyzeResponse <;> intro hy
          · exact hinv y hy
          · exact hinv y hy
          · exact hinv y hy
          · rcases mem_appendEvict _ _ _ hy with h1 | h1
            · exact hinv y h1
            · rw [h1]
              exact ⟨rfl, rfl⟩
        · exact hinv y hy
  exact key msgs [] (by intro x hx; simp at hx) e he

/-- Witness: the entry produced by one qualifying callback is retained
and carries both response fields. -/
theorem retained_entry_has_response_fields_w :
    (buildEntry [] sampleMsg sampleReqInfo sampleRespInfo) ∈
      captureRun [(false, sampleMsg)] ∧
    ((buildEntry [] sampleMsg sampleReqInfo
        sampleRespInfo).status_code.isSome = true ∧
     (buildEntry [] sampleMsg sampleReqInfo
        sampleRespInfo).response_headers.isSome = true) := by
  have hmem : (buildEntry [] sampleMsg sampleReqInfo sampleRespInfo) ∈
      captureRun [(false, sampleMsg)] := by decide
  exact ⟨hmem, retained_entry_has_response_fields [(false, sampleMsg)] _ hmem⟩

/-- C5 counterexample: the segment `-1` is not a non-negative integer,
so the claim demands a 400 `Invalid index` reply, but Python `int()`
parses it and the positional lookup then misses, so the code replies
404 `Item not found`. -/
theorem history_route_nonneg_cex :
    (route [] "GET" "/history/-1").1 = "404 Not Found" ∧
    (route [] "GET" "/history/-1").1 ≠ "400 Bad Request" ∧
    (route [] "GET" "/history/-1").2 = errorBody "Item not found" := by
  refine ⟨by decide, by decide, by decide⟩

/-- C5 (amended): for a GET whose path starts with `/history/`, the
trailing segment is parsed as a (possibly negative) Python integer; a
parse failure yields 400 `Invalid index`, a successful parse is looked
up positionally — found yields 200 with the entry JSON, anything else
(including every negative integer) yields 404 `Item not found`. -/
theorem history_route_amended (history : List CaptureEntry) (path : String)
    (hp : pyStartsWith path "/history/" = true) :
    route history "GET" path =
      match parseIntPy (lastSegment path) with
      | none => ("400 Bad Request", errorBody "Invalid index")
      | some i =>
        match get_history_item history i with
        | some item => ("200 OK", dumpsEntry item)
        | none => ("404 Not Found", errorBody "Item not found") := by
  have h1 : ("GET" == "OPTIONS") = false := by decide
  have h2 : (path == "/health") = false := by
    cases hq : path == "/health"
    · rfl
    · exfalso
      rw [eq_of_beq hq] at hp
      exact absurd hp (by decide)
  have h3 : (path == "/history") = false := by
    cases hq : path == "/history"
    · rfl
    · exfalso
      rw [eq_of_beq hq] at hp
      exact absurd hp (by decide)
  simp only [route, h1, h2, h3, hp, Bool.false_eq_true, if_false, if_true]

/-- Witness: the non-numeric segment `abc` drives the amended theorem to
the 400 `Invalid index` reply. -/
theorem history_route_amended_w :
    pyStartsWith "/history/abc" "/history/" = true ∧
    route [] "GET" "/history/abc" =
      ("400 Bad Request", errorBody "Invalid index") := by
  have hp : pyStartsWith "/history/abc" "/history/" = true := by decide
  refine ⟨hp, ?_⟩
  rw [history_route_amended [] "/history/abc" hp]
  decide

/-- C8: a connection whose request line splits into fewer than two
space-delimited tokens gets no response bytes at all — the handler
parses, fails the two-token guard, and just closes. -/
theorem malformed_request_no_response (history : List CaptureEntry)
    (stream : List Nat)
    (hm : (pySplitStr ((pySplitStr (readRequest stream) "\r\n").headD "")
      " ").length < 2) :
    handleConnection history stream = none := by
  unfold handleConnection handleRequest parseRequestLine
  rcases hxs : pySplitStr ((pySplitStr (readRequest stream) "\r\n").headD "")
      " " with _ | ⟨a, _ | ⟨b, t⟩⟩
  · simp [hxs]
  · simp [hxs]
  · rw [hxs] at hm
    simp only [List.length_cons] at hm
    omega

/-- Witness: the stream carrying `GET` and a blank line has a one-token
request line and elicits no response. -/
theorem malformed_request_no_response_w :
    (pySplitStr ((pySplitStr (readRequest [71, 69, 84, 13, 10, 13, 10])
      "\r\n").headD "") " ").length < 2 ∧
    handleConnection [] [71, 69, 84, 13, 10, 13, 10] = none := by
  have h : (pySplitStr ((pySplitStr (readRequest [71, 69, 84, 13, 10, 13, 10])
      "\r\n").headD "") " ").length < 2 := by decide
  exact ⟨h, malformed_request_no_response [] _ h⟩

theorem strData_append (a b : String) : (a ++ b).data = a.data ++ b.data :=
  rfl

theorem strAppend_assoc (a b c : String) : a ++ b ++ c = a ++ (b ++ c) := by
  cases a with
  | mk la =>
    cases b with
    | mk lb =>
      cases c with
      | mk lc => exact congrArg String.mk (List.append_assoc la lb lc)

theorem asciiStr_append (a b : String) :
    asciiStr (a ++ b) = (asciiStr a && asciiStr b) := by
  unfold asciiStr
  rw [strData_append, List.all_append]

theorem utf8Size_of_ascii (c : Char) (hc : asciiChar c = true) :
    c.utf8Size = 1 := by
  have h : c.toNat < 128 := of_decide_eq_true hc
  unfold Char.utf8Size
  rw [if_pos]
  change c.val ≤ 127
  rw [UInt32.le_def, BitVec.le_def]
  exact Nat.le_of_lt_succ h

theorem utf8ByteSizeGo_of_ascii (cs : List Char)
    (h : cs.all asciiChar = true) :
    String.utf8ByteSize.go cs = cs.length := by
  induction cs with
  | nil => rfl
  | cons c cs ih =>
    simp only [List.all_cons, Bool.and_eq_true] at h
    show String.utf8ByteSize.go cs + c.utf8Size = cs.length + 1
    rw [utf8Size_of_ascii c h.1, ih h.2]

theorem utf8ByteSize_of_ascii (s : String) (h : asciiStr s = true) :
    s.utf8ByteSize = s.length := by
  cases s with
  | mk cs => exact utf8ByteSizeGo_of_ascii cs h

theorem asciiStr_strConcat (l : List String)
    (h : ∀ s ∈ l, asciiStr s = true) : asciiStr (strConcat l) = true := by
  induction l with
  | nil => rfl
  | cons s rest ih =>
    show asciiStr (s ++ strConcat rest) = true
    rw [asciiStr_append, h s (List.mem_cons_self s rest),
      ih (fun t ht => h t (List.mem_cons_of_mem s ht))]
    rfl

theorem asciiStr_joinSep (sep : String) (hsep : asciiStr sep = true) :
    ∀ l : List String, (∀ s ∈ l, asciiStr s = true) →
      asciiStr (joinSep sep l) = true
  | [], _ => rfl
  | [s], h => h s (List.mem_cons_self s [])
  | s :: t :: ts, h => by
    show asciiStr (s ++ sep ++ joinSep sep (t :: ts)) = true
    rw [asciiStr_append, asciiStr_append,
      h s (List.mem_cons_self s (t :: ts)), hsep,
      asciiStr_joinSep sep hsep (t :: ts)
        (fun x hx => h x (List.mem_cons_of_mem s hx))]
    rfl

theorem asciiChar_hexDigitChar (n : Nat) :
    asciiChar (hexDigitChar n) = true := by
  unfold hexDigitChar
  split <;> decide

theorem asciiStr_uEscape (n : Nat) : asciiStr (uEscape n) = true := by
  unfold uEscape
  rw [asciiStr_append]
  have h2 : asciiStr ⟨[hexDigitChar (n / 4096 % 16),
      hexDigitChar (n / 256 % 16), hexDigitChar (n / 16 % 16),
      hexDigitChar (n % 16)]⟩ = true := by
    show ([hexDigitChar (n / 4096 % 16), hexDigitChar (n / 256 % 16),
      hexDigitChar (n / 16 % 16), hexDigitChar (n % 16)].all asciiChar) =
        true
    simp [asciiChar_hexDigitChar]
  rw [h2]
  rfl

theorem asciiStr_escapeChar (c : Char) : asciiStr (escapeChar c) = true := by
  unfold escapeChar
  split_ifs with h1 h2 h3 h4 h5 h6 h7 h8 h9
  · decide
  · decide
  · show ([c].all asciiChar) = true
    simp only [List.all_cons, List.all_nil, Bool.and_true]
    unfold asciiChar
    exact decide_eq_true (by omega)
  · decide
  · decide
  · decide
  · decide
  · decide
  · exact asciiStr_uEscape _
  · rw [asciiStr_append, asciiStr_uEscape, asciiStr_uEscape]
    rfl

theorem asciiStr_jsonStr (s : String) : asciiStr (jsonStr s) = true := by
  unfold jsonStr
  rw [asciiStr_append, asciiStr_append]
  have hc : asciiStr (strConcat (s.data.map escapeChar)) = true := by
    apply asciiStr_strConcat
    intro x hx
    rcases List.mem_map.1 hx with ⟨c, _, rfl⟩
    exact asciiStr_escapeChar c
  rw [hc]
  rfl

theorem asciiChar_natDigitChar (n : Nat) :
    asciiChar (Nat.digitChar n) = true := by
  unfold Nat.digitChar
  by_cases h0 : n = 0
  · subst h0
    decide
  rw [if_neg h0]
  by_cases h1 : n = 1
  · subst h1
    decide
  rw [if_neg h1]
  by_cases h2 : n = 2
  · subst h2
    decide
  rw [if_neg h2]
  by_cases h3 : n = 3
  · subst h3
    decide
  rw [if_neg h3]
  by_cases h4 : n = 4
  · subst h4
    decide
  rw [if_neg h4]
  by_cases h5 : n = 5
  · subst h5
    decide
  rw [if_neg h5]
  by_cases h6 : n = 6
  · subst h6
    decide
  rw [if_neg h6]
  by_cases h7 : n = 7
  · subst h7
    decide
  rw [if_neg h7]
  by_cases h8 : n = 8
  · subst h8
    decide
  rw [if_neg h8]
  by_cases h9 : n = 9
  · subst h9
    decide
  rw [if_neg h9]
  by_cases h10 : n = 10
  · subst h10
    decide
  rw [if_neg h10]
  by_cases h11 : n = 11
  · subst h11
    decide
  rw [if_neg h11]
  by_cases h12 : n = 12
  · subst h12
    decide
  rw [if_neg h12]
  by_cases h13 : n = 13
  · subst h13
    decide
  rw [if_neg h13]
  by_cases h14 : n = 14
  · subst h14
    decide
  rw [if_neg h14]
  by_cases h15 : n = 15
  · subst h15
    decide
  rw [if_neg h15]
  decide

theorem toDigitsCore_ascii (fuel : Nat) :
    ∀ (n : Nat) (ds : List Char), ds.all asciiChar = true →
      (Nat.toDigitsCore 10 fuel n ds).all asciiChar = true := by
  induction fuel with
  | zero =>
    intro n ds h
    exact h
  | succ fuel ih =>
    intro n ds h
    show (if n / 10 = 0 then Nat.digitChar (n % 10) :: ds
      else Nat.toDigitsCore 10 fuel (n / 10)
        (Nat.digitChar (n % 10) :: ds)).all asciiChar = true
    have hds : (Nat.digitChar (n % 10) :: ds).all asciiChar = true := by
      simp only [List.all_cons, Bool.and_eq_true]
      exact ⟨asciiChar_natDigitChar _, h⟩
    split
    · exact hds
    · exact ih (n / 10) _ hds

theorem asciiStr_natRepr (n : Nat) : asciiStr (Nat.repr n) = true := by
  show (Nat.toDigits 10 n).asString.data.all asciiChar = true
  unfold Nat.toDigits List.asString
  exact toDigitsCore_ascii (n + 1) n [] rfl

theorem asciiStr_intRepr (i : Int) : asciiStr (intRepr i) = true := by
  unfold intRepr
  split
  · rw [asciiStr_append, asciiStr_natRepr]
    rfl
  · exact asciiStr_natRepr _

theorem asciiStr_dumpsStrList (l : List String) :
    asciiStr (dumpsStrList l) = true := by
  unfold dumpsStrList
  rw [asciiStr_append, asciiStr_append]
  have hj : asciiStr (joinSep ", " (l.map jsonStr)) = true := by
    apply asciiStr_joinSep ", " (by decide)
    intro x hx
    rcases List.mem_map.1 hx with ⟨s, _, rfl⟩
    exact asciiStr_jsonStr s
  rw [hj]
  rfl

theorem asciiStr_jsonField (k v : String) (hv : asciiStr v = true) :
    asciiStr (jsonField k v) = true := by
  unfold jsonField
  rw [asciiStr_append, asciiStr_append, asciiStr_jsonStr, hv]
  rfl

theorem entryFields_ascii (e : CaptureEntry) :
    ∀ s ∈ entryFields e, asciiStr s = true := by
  intro s hs
  unfold entryFields at hs
  rcases List.mem_append.1 hs with hs1 | hs2
  · rcases List.mem_append.1 hs1 with hs0 | hsc
    · simp only [List.mem_cons, List.mem_singleton, List.not_mem_nil,
        or_false] at hs0
      rcases hs0 with rfl | rfl | rfl | rfl | rfl | rfl | rfl | rfl | rfl |
        rfl | rfl
      · exact asciiStr_jsonField _ _ (asciiStr_natRepr _)
      · exact asciiStr_jsonField _ _ (asciiStr_jsonStr _)
      · exact asciiStr_jsonField _ _ (asciiStr_natRepr _)
      · exact asciiStr_jsonField _ _ (asciiStr_jsonStr _)
      · exact asciiStr_jsonField _ _ (asciiStr_jsonStr _)
      · exact asciiStr_jsonField _ _ (asciiStr_jsonStr _)
      · exact asciiStr_jsonField _ _ (asciiStr_jsonStr _)
      · exact asciiStr_jsonField _ _ (asciiStr_natRepr _)
      · exact asciiStr_jsonField _ _ (asciiStr_jsonStr _)
      · exact asciiStr_jsonField _ _ (asciiStr_jsonStr _)
      · exact asciiStr_jsonField _ _ (asciiStr_dumpsStrList _)
    · revert hsc
      cases e.status_code with
      | none =>
        intro hsc
        exact absurd hsc (List.not_mem_nil s)
      | some sc =>
        intro hsc
        rcases List.mem_singleton.1 hsc with rfl
        exact asciiStr_jsonField _ _ (asciiStr_intRepr _)
  · revert hs2
    cases e.response_headers with
    | none =>
      intro hs2
      exact absurd hs2 (List.not_mem_nil s)
    | some hsx =>
      intro hs2
      rcases List.mem_singleton.1 hs2 with rfl
      exact asciiStr_jsonField _ _ (asciiStr_dumpsStrList _)

theorem asciiStr_dumpsEntry (e : CaptureEntry) :
    asciiStr (dumpsEntry e) = true := by
  unfold dumpsEntry
  rw [asciiStr_append, asciiStr_append]
  rw [asciiStr_joinSep ", " (by decide) _ (entryFields_ascii e)]
  rfl

theorem asciiStr_dumpsHistory (h : List CaptureEntry) :
    asciiStr (dumpsHistory h) = true := by
  unfold dumpsHistory
  rw [asciiStr_append, asciiStr_append]
  have hj : asciiStr (joinSep ", " (h.map dumpsEntry)) = true := by
    apply asciiStr_joinSep ", " (by decide)
    intro x hx
    rcases List.mem_map.1 hx with ⟨e, _, rfl⟩
    exact asciiStr_dumpsEntry e
  rw [hj]
  rfl

theorem asciiStr_dumpsStats (st : Stats) :
    asciiStr (dumpsStats st) = true := by
  unfold dumpsStats
  rw [asciiStr_append, asciiStr_append]
  have hj : asciiStr (joinSep ", "
      [jsonField "version" (jsonStr st.version),
       jsonField "author" (jsonStr st.author),
       jsonField "total_requests" (Nat.repr st.total_requests),
       jsonField "hosts" (dumpsStrList st.hosts),
       jsonField "methods"
         ("\x7b" ++ joinSep ", "
            (st.methods.map (fun p => jsonField p.1 (Nat.repr p.2))) ++
          "\x7d")]) = true := by
    apply asciiStr_joinSep ", " (by decide)
    intro x hx
    simp only [List.mem_cons, List.mem_singleton, List.not_mem_nil,
      or_false] at hx
    rcases hx with rfl | rfl | rfl | rfl | rfl
    · exact asciiStr_jsonField _ _ (asciiStr_jsonStr _)
    · exact asciiStr_jsonField _ _ (asciiStr_jsonStr _)
    · exact asciiStr_jsonField _ _ (asciiStr_natRepr _)
    · exact asciiStr_jsonField _ _ (asciiStr_dumpsStrList _)
    · apply asciiStr_jsonField
      rw [asciiStr_append, asciiStr_append]
      have hin : asciiStr (joinSep ", "
          (st.methods.map (fun p => jsonField p.1 (Nat.repr p.2)))) = true := by
        apply asciiStr_joinSep ", " (by decide)
        intro y hy
        rcases List.mem_map.1 hy with ⟨p, _, rfl⟩
        exact asciiStr_jsonField _ _ (asciiStr_natRepr _)
      rw [hin]
      rfl
  rw [hj]
  rfl

theorem route_body_ascii (history : List CaptureEntry) (method path : String) :
    asciiStr (route history method path).2 = true := by
  unfold route
  split_ifs with h1 h2 h3 h4 h5
  · decide
  · decide
  · show asciiStr (dumpsHistory (get_history history)) = true
    exact asciiStr_dumpsHistory _
  · split
    · decide
    · split
      · exact asciiStr_dumpsEntry _
      · decide
  · show asciiStr (dumpsStats (get_stats history)) = true
    exact asciiStr_dumpsStats _
  · decide

theorem matchesAt_self (p t : List Char) : matchesAt p (p ++ t) = true := by
  induction p with
  | nil => rfl
  | cons c p ih =>
    show (c == c && matchesAt p (p ++ t)) = true
    rw [ih]
    simp

theorem findSub_of_matchesAt (p l : List Char) (h : matchesAt p l = true) :
    findSub p l = true := by
  cases l with
  | nil =>
    cases p with
    | nil => rfl
    | cons c q => exact absurd h (by simp [matchesAt])
  | cons d t =>
    show (matchesAt p (d :: t) || findSub p t) = true
    rw [h]
    rfl

theorem findSub_append (p a l : List Char) (h : findSub p l = true) :
    findSub p (a ++ l) = true := by
  induction a with
  | nil => exact h
  | cons c a ih =>
    show (matchesAt p (c :: (a ++ l)) || findSub p (a ++ l)) = true
    rw [ih]
    simp

theorem strHasSub_decomp (r x pat y : String) (hr : r = x ++ (pat ++ y)) :
    strHasSub r pat = true := by
  subst hr
  unfold strHasSub
  rw [strData_append, strData_append]
  exact findSub_append _ _ _
    (findSub_of_matchesAt _ _ (matchesAt_self pat.data y.data))

theorem buildResponse_headers (s b : String) (hb : asciiStr b = true) :
    strHasSub (buildResponse s b) "Content-Type: application/json\r\n" =
      true ∧
    strHasSub (buildResponse s b)
      ("Content-Length: " ++ Nat.repr b.utf8ByteSize ++ "\r\n") = true ∧
    strHasSub (buildResponse s b) "Connection: close\r\n" = true ∧
    strHasSub (buildResponse s b) "Access-Control-Allow-Origin: *\r\n" =
      true ∧
    strHasSub (buildResponse s b)
      "Access-Control-Allow-Methods: GET, POST, OPTIONS\r\n" = true ∧
    strHasSub (buildResponse s b)
      "Access-Control-Allow-Headers: Content-Type\r\n" = true := by
  have hby : Nat.repr b.utf8ByteSize = Nat.repr b.length := by
    rw [utf8ByteSize_of_ascii b hb]
  refine ⟨?_, ?_, ?_, ?_, ?_, ?_⟩
  · apply strHasSub_decomp _ ("HTTP/1.1 " ++ (s ++ ("\r\n" ++ corsHeaders)))
      _ ("Content-Length: " ++ (Nat.repr b.length ++
        ("\r\nConnection: close\r\n\r\n" ++ b)))
    unfold buildResponse
    rw [show ("Content-Type: application/json\r\nContent-Length: " : String) =
      "Content-Type: application/json\r\n" ++ "Content-Length: " from
        by decide]
    simp only [strAppend_assoc]
  · rw [hby]
    apply strHasSub_decomp _ ("HTTP/1.1 " ++ (s ++ ("\r\n" ++ (corsHeaders ++
      "Content-Type: application/json\r\n")))) _
      ("Connection: close\r\n\r\n" ++ b)
    unfold buildResponse
    rw [show ("Content-Type: application/json\r\nContent-Length: " : String) =
      "Content-Type: application/json\r\n" ++ "Content-Length: " from
        by decide,
      show ("\r\nConnection: close\r\n\r\n" : String) =
        "\r\n" ++ "Connection: close\r\n\r\n" from by decide]
    simp only [strAppend_assoc]
  · apply strHasSub_decomp _ ("HTTP/1.1 " ++ (s ++ ("\r\n" ++ (corsHeaders ++
      ("Content-Type: application/json\r\nContent-Length: " ++
        (Nat.repr b.length ++ "\r\n")))))) _ ("\r\n" ++ b)
    unfold buildResponse
    rw [show ("\r\nConnection: close\r\n\r\n" : String) =
      "\r\n" ++ ("Connection: close\r\n" ++ "\r\n") from by decide]
    simp only [strAppend_assoc]
  · apply strHasSub_decomp _ ("HTTP/1.1 " ++ (s ++ "\r\n")) _
      ("Access-Control-Allow-Methods: GET, POST, OPTIONS\r\nAccess-Control-Allow-Headers: Content-Type\r\n" ++
        ("Content-Type: application/json\r\nContent-Length: " ++
          (Nat.repr b.length ++ ("\r\nConnection: close\r\n\r\n" ++ b))))
    unfold buildResponse corsHeaders
    rw [show ("Access-Control-Allow-Origin: *\r\nAccess-Control-Allow-Methods: GET, POST, OPTIONS\r\nAccess-Control-Allow-Headers: Content-Type\r\n" : String) =
      "Access-Control-Allow-Origin: *\r\n" ++
        "Access-Control-Allow-Methods: GET, POST, OPTIONS\r\nAccess-Control-Allow-Headers: Content-Type\r\n" from
          by decide]
    simp only [strAppend_assoc]
  · apply strHasSub_decomp _ ("HTTP/1.1 " ++ (s ++ ("\r\n" ++
      "Access-Control-Allow-Origin: *\r\n"))) _
      ("Access-Control-Allow-Headers: Content-Type\r\n" ++
        ("Content-Type: application/json\r\nContent-Length: " ++
          (Nat.repr b.length ++ ("\r\nConnection: close\r\n\r\n" ++ b))))
    unfold buildResponse corsHeaders
    rw [show ("Access-Control-Allow-Origin: *\r\nAccess-Control-Allow-Methods: GET, POST, OPTIONS\r\nAccess-Control-Allow-Headers: Content-Type\r\n" : String) =
      "Access-Control-Allow-Origin: *\r\n" ++
        ("Access-Control-Allow-Methods: GET, POST, OPTIONS\r\n" ++
          "Access-Control-Allow-Headers: Content-Type\r\n") from by decide]
    simp only [strAppend_assoc]
  · apply strHasSub_decomp _ ("HTTP/1.1 " ++ (s ++ ("\r\n" ++
      ("Access-Control-Allow-Origin: *\r\n" ++
        "Access-Control-Allow-Methods: GET, POST, OPTIONS\r\n")))) _
      ("Content-Type: application/json\r\nContent-Length: " ++
        (Nat.repr b.length ++ ("\r\nConnection: close\r\n\r\n" ++ b)))
    unfold buildResponse corsHeaders
    rw [show ("Access-Control-Allow-Origin: *\r\nAccess-Control-Allow-Methods: GET, POST, OPTIONS\r\nAccess-Control-Allow-Headers: Content-Type\r\n" : String) =
      "Access-Control-Allow-Origin: *\r\n" ++
        ("Access-Control-Allow-Methods: GET, POST, OPTIONS\r\n" ++
          "Access-Control-Allow-Headers: Content-Type\r\n") from by decide]
    simp only [strAppend_assoc]

/-- C6: every response the handler writes — for any parsed method and
path, successes and errors alike — is the `buildResponse` rendering of
the routed status and body, whose body is pure ASCII, and it carries
`Content-Type: application/json`, a `Content-Length` equal to the UTF-8
byte length of the body, `Connection: close`, and the three CORS
headers. -/
theorem response_headers_complete (history : List CaptureEntry)
    (request r : String) (hr : handleRequest history request = some r) :
    r = buildResponse (responseStatusOf history request)
      (responseBodyOf history request) ∧
    asciiStr (responseBodyOf history request) = true ∧
    strHasSub r "Content-Type: application/json\r\n" = true ∧
    strHasSub r ("Content-Length: " ++
      Nat.repr (responseBodyOf history request).utf8ByteSize ++ "\r\n") =
        true ∧
    strHasSub r "Connection: close\r\n" = true ∧
    strHasSub r "Access-Control-Allow-Origin: *\r\n" = true ∧
    strHasSub r "Access-Control-Allow-Methods: GET, POST, OPTIONS\r\n" =
      true ∧
    strHasSub r "Access-Control-Allow-Headers: Content-Type\r\n" = true := by
  unfold handleRequest at hr
  cases hpl : parseRequestLine request with
  | none =>
    rw [hpl] at hr
    exact absurd hr (by simp)
  | some mp =>
    rw [hpl] at hr
    rw [Option.map_some'] at hr
    injection hr with hr
    unfold responseStatusOf responseBodyOf
    rw [hpl]
    have hb := route_body_ascii history mp.1 mp.2
    obtain ⟨c1, c2, c3, c4, c5, c6⟩ :=
      buildResponse_headers (route history mp.1 mp.2).1
        (route history mp.1 mp.2).2 hb
    rw [← hr]
    exact ⟨rfl, hb, c1, c2, c3, c4, c5, c6⟩

/-- Witness: the concrete health-check exchange carries every required
header. -/
theorem response_headers_complete_w :
    handleRequest [] "GET /health HTTP/1.1\r\n\r\n" =
      some (buildResponse "200 OK" healthBody) ∧
    buildResponse "200 OK" healthBody =
      buildResponse (responseStatusOf [] "GET /health HTTP/1.1\r\n\r\n")
        (responseBodyOf [] "GET /health HTTP/1.1\r\n\r\n") ∧
    strHasSub (buildResponse "200 OK" healthBody)
      "Content-Type: application/json\r\n" = true ∧
    strHasSub (buildResponse "200 OK" healthBody)
      "Access-Control-Allow-Origin: *\r\n" = true := by
  have h : handleRequest [] "GET /health HTTP/1.1\r\n\r\n" =
      some (buildResponse "200 OK" healthBody) := by
    set_option maxRecDepth 100000 in decide
  obtain ⟨c0, _, c1, _, _, c4, _, _⟩ :=
    response_headers_complete [] "GET /health HTTP/1.1\r\n\r\n"
      (buildResponse "200 OK" healthBody) h
  exact ⟨h, c0, c1, c4⟩
